import Mathlib

/-!
# Verification of the map-reduce coordinator (`batheaded/map-reduce`)

A shallow embedding, in Lean 4, of the parts of the repository that the
specification's claims are about:

* `TaskGroup` and `Master` from `map_reduce/server/nodes/master.py`
  (task bookkeeping, `report_task`, recovery from backup, final commit,
  lock-acquisition orders);
* `NameServer.refresh_nameserver` and `_stop_local_nameserver` from
  `map_reduce/server/nameserver/nameserver.py` (the naming contest);
* `ServerInterface` from `map_reduce/client/server_interface.py`
  (the client-side result handshake).

Python dictionaries are embedded as insertion-ordered association lists
(`PyDict`), Python values as the inductive `PyVal` (numbers, strings, pairs
a.k.a. tuples, and cons-lists).  Mutating methods become state-passing
functions; a Python method that can raise returns the post-state paired with
an optional exception message, so mutations performed before a `raise` are
still visible, exactly as in Python.
-/

set_option autoImplicit false

/-- Embedded Python values: numbers, strings, 2-tuples, and lists (encoded
as `pnil`/`pcons` chains so that decidable equality derives structurally). -/
inductive PyVal where
  | pnat (n : Nat)
  | pstr (s : String)
  | ppair (a b : PyVal)
  | pnil
  | pcons (hd tl : PyVal)
deriving DecidableEq

/-- Encode a Lean list of values as an embedded Python list. -/
def plist : List PyVal → PyVal
  | [] => .pnil
  | x :: xs => .pcons x (plist xs)

/-- Outermost type test `type(x) is list` of the Python runtime. -/
def isPyList : PyVal → Bool
  | .pnil => true
  | .pcons _ _ => true
  | _ => false

/-- Python's in-place `x.append(v)` on an embedded list (identity on
non-lists; callers test `isPyList` first, as the runtime would raise). -/
def pyAppendElem : PyVal → PyVal → PyVal
  | .pnil, v => .pcons v .pnil
  | .pcons a t, v => .pcons a (pyAppendElem t v)
  | x, _ => x

/-- Python iterable unpacking `a, b = x` into exactly two targets: succeeds
on a 2-tuple, a 2-element list, or a 2-character string, and raises
(`ValueError`/`TypeError`) otherwise. -/
def unpack2 : PyVal → Except String (PyVal × PyVal)
  | .ppair a b => .ok (a, b)
  | .pcons a (.pcons b .pnil) => .ok (a, b)
  | .pstr s =>
      match s.toList with
      | [c1, c2] => .ok (.pstr (String.singleton c1), .pstr (String.singleton c2))
      | _ => .error "ValueError: unpacking a string that does not have exactly 2 characters"
  | _ => .error "ValueError or TypeError: cannot unpack into two targets"

/-- A Python `dict` as an insertion-ordered association list.  A dict
reachable in Python always has pairwise distinct keys (`(dkeys d).Nodup`). -/
abbrev PyDict : Type := List (PyVal × PyVal)

/-- Model of `d[k]` lookup (first occurrence). -/
def dget? : PyDict → PyVal → Option PyVal
  | [], _ => none
  | (k', v) :: d, k => if k' = k then some v else dget? d k

/-- Model of `k in d`. -/
def dmem (d : PyDict) (k : PyVal) : Bool := (dget? d k).isSome

/-- Model of `d[k] = v`: replace in place if the key exists, else append at the end —
Python dicts preserve insertion order. -/
def dset : PyDict → PyVal → PyVal → PyDict
  | [], k, v => [(k, v)]
  | (k', v') :: d, k, v => if k' = k then (k, v) :: d else (k', v') :: dset d k v

/-- Model of `d.pop(k)` (the removal part): drop the entry with key `k`. -/
def dremove : PyDict → PyVal → PyDict
  | [], _ => []
  | (k', v') :: d, k => if k' = k then d else (k', v') :: dremove d k

/-- Model of `d.update(e)`: set every entry of `e` into `d`, in `e`'s order. -/
def dupdate (d : PyDict) : PyDict → PyDict
  | [] => d
  | (k, v) :: rest => dupdate (dset d k v) rest

/-- The key list of a dict, in storage order. -/
def dkeys (d : PyDict) : List PyVal := d.map Prod.fst

/-- Model of `d.setdefault(k, []).append(v)` as used by the Master's shuffle step:
create the list if the key is absent, append to it if it is a list, raise
`AttributeError` if the stored value is not a list. -/
def setdefaultAppend (d : PyDict) (k v : PyVal) : Except String PyDict :=
  match dget? d k with
  | none => .ok (dset d k (.pcons v .pnil))
  | some w =>
      if isPyList w then .ok (dset d k (pyAppendElem w v))
      else .error "AttributeError: value stored under the key has no append method"

/-- Decidable key-disjointness of two dicts. -/
def disjKeys (a b : PyDict) : Bool := a.all (fun p => !(dmem b p.1))

/-- Model of `TaskGroup` from `master.py`: the three task dictionaries of one phase,
as a value (the per-object heap identities are modelled separately, see
`TaskGroupRefs`). -/
structure TaskGroup where
  pending : PyDict
  assigned : PyDict
  completed : PyDict
deriving DecidableEq

/-- Model of `TaskGroup.any`: `len(pending) > 0 or len(assigned) > 0`. -/
def TaskGroup.any (g : TaskGroup) : Bool :=
  decide (g.pending.length > 0) || decide (g.assigned.length > 0)

/-- Model of `TaskGroup.none`: `len(pending) == 0 and len(assigned) == 0`. -/
def TaskGroup.noTasks (g : TaskGroup) : Bool :=
  decide (g.pending.length = 0) && decide (g.assigned.length = 0)

/-- Model of `TaskGroup.set_as_complete`: pop the task from `pending` or `assigned`
(in that order) and store it in `completed`; returns `false` (and logs)
when the id is in neither. -/
def TaskGroup.set_as_complete (g : TaskGroup) (taskId : PyVal) : TaskGroup × Bool :=
  match dget? g.pending taskId with
  | some task =>
      ({ g with pending := dremove g.pending taskId,
                completed := dset g.completed taskId task }, true)
  | none =>
      match dget? g.assigned taskId with
      | some task =>
          ({ g with assigned := dremove g.assigned taskId,
                    completed := dset g.completed taskId task }, true)
      | none => (g, false)

/-- Model of `TaskGroup.reset`: clear all three dicts. -/
def TaskGroup.reset (_ : TaskGroup) : TaskGroup := ⟨[], [], []⟩

/-- Model of `TaskGroup.reset_assigned_to_pending`: `pending.update(assigned)` then
`assigned.clear()`. -/
def TaskGroup.reset_assigned_to_pending (g : TaskGroup) : TaskGroup :=
  { g with pending := dupdate g.pending g.assigned, assigned := [] }

/-- Model of `TaskGroup.dump`: the `(pending, assigned, completed)` tuple, modelled as
a list so that the tuple length is observable. -/
def TaskGroup.dump (g : TaskGroup) : List PyDict :=
  [g.pending, g.assigned, g.completed]

/-- Model of `TaskGroup.load`: `assert len(ts) == 3` then unpack into the three
fields (the assertion failure is the `error` case). -/
def TaskGroup.load (_ : TaskGroup) (ts : List PyDict) : Except String TaskGroup :=
  match ts with
  | [p, a, c] => .ok ⟨p, a, c⟩
  | _ => .error "AssertionError: Provided tuple must contain pending, assigned and completed tasks."

/-- The Master's mutable job state (`Master.__init__` fields).  Serialised
function blobs are opaque and are modelled by numeric identifiers;
`mapFunction`/`reduceFunction` start out as Python `None` (`Option.none`).
Follower addresses are opaque `PyVal`s. -/
structure MasterState where
  followers : List PyVal
  idleFollowers : List PyVal
  mapTasks : TaskGroup
  reduceTasks : TaskGroup
  results : List PyVal
  mapFunction : Option Nat
  reduceFunction : Option Nat
  alive : Bool
deriving DecidableEq

/-- The follower-bookkeeping block at the top of `Master.report_task`
(under `followers_lock`): a busy follower is moved to the idle set; an
unknown or already-idle follower is only logged. -/
def reportFollowerStep (st : MasterState) (follower : PyVal) : MasterState :=
  if follower ∈ st.followers then
    { st with followers := st.followers.erase follower,
              idleFollowers :=
                if follower ∈ st.idleFollowers then st.idleFollowers
                else st.idleFollowers ++ [follower] }
  else st

/-- Model of `Master.report_task(follower, task_id, task_func, result)`.  Returns the
post-state together with the exception raised, if any; state mutations made
before a raise (the follower move, the `set_as_complete`) remain visible,
as they do in Python. -/
def reportTask (st : MasterState) (follower taskId : PyVal) (taskFunc : Nat)
    (result : PyVal) : MasterState × Option String :=
  let st1 := reportFollowerStep st follower
  if st1.mapFunction = some taskFunc then
    let st2 := { st1 with mapTasks := (st1.mapTasks.set_as_complete taskId).1 }
    match unpack2 result with
    | .error e => (st2, some e)
    | .ok (outKey, interVal) =>
        match setdefaultAppend st2.reduceTasks.pending outKey interVal with
        | .error e => (st2, some e)
        | .ok d =>
            ({ st2 with reduceTasks := { st2.reduceTasks with pending := d } }, none)
  else if st1.reduceFunction = some taskFunc then
    let st2 := { st1 with reduceTasks := (st1.reduceTasks.set_as_complete taskId).1 }
    ({ st2 with results := st2.results ++ [result] }, none)
  else
    (st1, some "ValueError: Received a task function that is not map or reduce.")

/-- Externally visible calls the Master can make at commit time. -/
inductive MasterEffect where
  | dhtInsert (key : String) (v : PyVal)
  | notifyResults (v : PyVal)
deriving DecidableEq

/-- Whether an effect is an invocation of the client's results callback. -/
def MasterEffect.isNotify : MasterEffect → Bool
  | .notifyResults _ => true
  | _ => false

/-- The commit step at the end of `_master_loop` (lines 309-313): reached
after the map and reduce dispatch loops have exited; if still alive, insert
`self._results` under the literal DHT key `'map-reduce/final-results'`.
No other external call is made. -/
def masterCommit (st : MasterState) : List MasterEffect :=
  if st.alive then [.dhtInsert "map-reduce/final-results" (plist st.results)] else []

/-- A heap of Python dict objects, for the parts of the embedding where
object identity is observable. -/
structure PyHeap where
  next : Nat
  store : Nat → PyDict

/-- Dereference a dict cell. -/
def hread (h : PyHeap) (r : Nat) : PyDict := h.store r

/-- Mutate a dict cell in place. -/
def hwrite (h : PyHeap) (r : Nat) (d : PyDict) : PyHeap :=
  ⟨h.next, fun x => if x = r then d else h.store x⟩

/-- A `TaskGroup` object: three references to dict objects. -/
structure TaskGroupRefs where
  pending : Nat
  assigned : Nat
  completed : Nat
deriving DecidableEq

/-- Heap state after `import`: executing `class TaskGroup` evaluates the
three default-argument expressions `{}` of
`TaskGroup.__init__(self, pending={}, assigned={}, completed={})` exactly
once, at function-definition time; they live at cells 0, 1 and 2. -/
def importHeap : PyHeap := ⟨3, fun _ => []⟩

/-- The default-argument objects of `TaskGroup.__init__`. -/
def taskGroupDefaultArgs : TaskGroupRefs := ⟨0, 1, 2⟩

/-- Model of `TaskGroup()` with no arguments: Python binds each omitted parameter to
the default object evaluated at definition time, so every no-argument
construction yields references to the same three dicts. -/
def taskGroupNew : TaskGroupRefs := taskGroupDefaultArgs

/-- The two task-group objects a fresh Master holds. -/
structure MasterTaskRefs where
  mapTasks : TaskGroupRefs
  reduceTasks : TaskGroupRefs
deriving DecidableEq

/-- Model of `Master.__init__` lines 86-87: `self._map_tasks = TaskGroup()`;
`self._reduce_tasks = TaskGroup()`. -/
def masterInitTasks : MasterTaskRefs := ⟨taskGroupNew, taskGroupNew⟩

/-- Heap-level `reset_assigned_to_pending` on a task-group object:
`pending.update(assigned)` mutates the pending dict object in place, then
`assigned.clear()` empties the assigned dict object. -/
def resetAssignedToPendingH (h : PyHeap) (g : TaskGroupRefs) : PyHeap :=
  let h1 := hwrite h g.pending (dupdate (hread h g.pending) (hread h g.assigned))
  hwrite h1 g.assigned []

/-- Heap-level model of the task-group part of the backup-present branch of
the recovery step (`_master_loop`, master.py lines 270-274), operating on
dict objects so that sharing between the two dumps of one backup tuple is
captured.  `load` rebinds a group's three fields to the dump's dict
objects; statement order is that of the source:
`map_tasks.load(backup[0])`; `map_tasks.reset_assigned_to_pending()`;
`reduce_tasks.load(backup[1])`; `reduce_tasks.reset_assigned_to_pending()`.
Returns the two rebound groups and the heap after the in-place updates. -/
def masterRecoverFromBackupH (h : PyHeap)
    (mapDumpRefs reduceDumpRefs : TaskGroupRefs) :
    (TaskGroupRefs × TaskGroupRefs) × PyHeap :=
  let mapRefs := mapDumpRefs
  let h1 := resetAssignedToPendingH h mapRefs
  let reduceRefs := reduceDumpRefs
  let h2 := resetAssignedToPendingH h1 reduceRefs
  ((mapRefs, reduceRefs), h2)

/-- A network endpoint (`host:port`), the identity underlying a Pyro URI. -/
structure Endpoint where
  host : String
  port : Nat
deriving DecidableEq

/-- The `NameServer` wrapper state (`nameserver.py`): own ip/port, the URI
currently proxied to, whether the local naming daemon is running
(`_ns_daemon is not None`), and the registry the local daemon holds. -/
structure NSState where
  ip : String
  port : Nat
  uri : Endpoint
  daemonRunning : Bool
  registry : PyDict
deriving DecidableEq

/-- Model of `NameServer.is_remote`: `self._ip != self._uri.host`. -/
def NSState.is_remote (st : NSState) : Bool := decide (st.ip ≠ st.uri.host)

/-- Model of `NameServer.is_local`. -/
def NSState.is_local (st : NSState) : Bool := !st.is_remote

/-- Model of `_start_local_nameserver`: `startNS(self._ip, self._port)` binds the URI
to the own endpoint and starts the daemon. -/
def startLocalNameserver (st : NSState) : NSState :=
  { st with uri := ⟨st.ip, st.port⟩, daemonRunning := true }

/-- The forwarding loop of `_stop_local_nameserver`: every `(name, addr)`
binding of the sender is offered to the receiver with `safe=True`; Pyro
rejects a safe registration of an already-bound name (the raised
`NamingError` is caught and the binding skipped). -/
def forwardRegistry (recv : PyDict) : PyDict → PyDict
  | [] => recv
  | (n, a) :: rest => forwardRegistry (if dmem recv n then recv else dset recv n a) rest

/-- Model of `_stop_local_nameserver(forward_to)`: forward the whole local registry
to the winner, overwrite `self._uri` with the winner's URI (so the wrapper
proxies to it from now on), and shut the local daemon down.  Returns the new
wrapper state and the receiving daemon's registry. -/
def stopLocalNameserver (st : NSState) (forwardTo : Endpoint) (recvRegistry : PyDict) :
    NSState × PyDict :=
  ({ st with uri := forwardTo, daemonRunning := false },
   forwardRegistry recvRegistry st.registry)

/-- Model of `NameServer.refresh_nameserver`, parameterised by the endpoint-id hash
`idf` (the `id` helper of `server/utils.py`, absent from the sources: the
spec describes it as the 160-bit SHA-1 identifier of the endpoint), by
reachability of remote endpoints, and by the result of the broadcast lookup
`_locate_nameserver()`.  Returns the wrapper state and the remote daemon's
registry after the call. -/
def refreshNameserver (idf : Endpoint → Nat) (reachableF : Endpoint → Bool)
    (located : Option Endpoint) (st : NSState) (remoteRegistry : PyDict) :
    NSState × PyDict :=
  let currNs := st.uri
  if st.is_remote then
    if !(reachableF currNs) then
      match located with
      | some newNs => ({ st with uri := newNs }, remoteRegistry)
      | none => (startLocalNameserver st, remoteRegistry)
    else (st, remoteRegistry)
  else
    match located with
    | some newNs =>
        if newNs ≠ currNs then
          if idf currNs ≥ idf newNs then stopLocalNameserver st newNs remoteRegistry
          else (st, remoteRegistry)
        else (st, remoteRegistry)
    | none => (st, remoteRegistry)

/-- Client-side state of `ServerInterface`: the `results` class attribute
and the `results_lock`. -/
structure ClientState where
  results : Option PyVal
  lockHeld : Bool
deriving DecidableEq

/-- Class-body state: `results = None`, lock free. -/
def clientInit : ClientState := ⟨none, false⟩

/-- The first action of `ServerInterface.startup`:
`cls.results_lock.acquire()`. -/
def clientStartupAcquire (st : ClientState) : ClientState := { st with lockHeld := true }

/-- Model of `ServerInterface.notify_results(results)`: store the results in the
class attribute, then release the lock. -/
def notifyResults (st : ClientState) (v : PyVal) : ClientState :=
  { st with results := some v, lockHeld := false }

/-- Model of `ServerInterface.await_results()`: acquire then release `results_lock`.
While the lock is held the acquire blocks (`Option.none`); once free, the
call completes and returns Python `None` — the method body has no `return`
statement. -/
def awaitResults (st : ClientState) : Option (Option PyVal × ClientState) :=
  if st.lockHeld then none else some (none, st)

/-- The Master's four mutexes. -/
inductive MasterLock where
  | followers
  | mapTasks
  | reduceTasks
  | results
deriving DecidableEq

/-- Nested acquisition order of the `_backup_loop` snapshot (lines 323-325):
`with self._followers_lock, self._results_lock, self._map_tasks_lock,
self._reduce_tasks_lock`. -/
def backupLoopLocks : List MasterLock := [.followers, .results, .mapTasks, .reduceTasks]

/-- Nested acquisition order of `_assign_task` (line 206):
`with self._followers_lock, self._map_tasks_lock, self._reduce_tasks_lock`. -/
def assignTaskLocks : List MasterLock := [.followers, .mapTasks, .reduceTasks]

/-- The successive (non-overlapping) `with` blocks of `report_task` on its
map branch: `followers_lock`, then `map_tasks_lock`, then
`reduce_tasks_lock`. -/
def reportTaskMapLockGroups : List (List MasterLock) :=
  [[.followers], [.mapTasks], [.reduceTasks]]

/-- The successive `with` blocks of `report_task` on its reduce branch:
`followers_lock`, then `reduce_tasks_lock` and `results_lock` jointly. -/
def reportTaskReduceLockGroups : List (List MasterLock) :=
  [[.followers], [.reduceTasks, .results]]

/-- Position of each lock in the fixed order the specification claims:
`followers_lock` → `map_tasks_lock` → `reduce_tasks_lock` → `results_lock`. -/
def claimedLockIndex : MasterLock → Nat
  | .followers => 0
  | .mapTasks => 1
  | .reduceTasks => 2
  | .results => 3

/-- A nested acquisition sequence respects the claimed fixed order when its
locks appear at strictly increasing claimed positions. -/
def respectsClaimedOrder : List MasterLock → Bool
  | [] => true
  | [_] => true
  | a :: b :: rest =>
      decide (claimedLockIndex a < claimedLockIndex b) && respectsClaimedOrder (b :: rest)

/-- Decode an embedded Python list back into a Lean list (`none` when the
value is not a list). -/
def unplist : PyVal → Option (List PyVal)
  | .pnil => some []
  | .pcons a t => (unplist t).map (a :: ·)
  | _ => none

/-- The content, as a Lean list, of the slot that `setdefault(k, []).append`
operates on: the empty list when the key is absent, the stored list when the
key holds a list, `none` (an `AttributeError`) otherwise. -/
def pendingSlot : Option PyVal → Option (List PyVal)
  | none => some []
  | some w => unplist w

/-- Model of `len(pending) + len(assigned) + len(completed)`: the total number of
task ids a group holds (the quantity of invariant P2). -/
def taskTotal (g : TaskGroup) : Nat :=
  g.pending.length + g.assigned.length + g.completed.length

/-- Pairwise key-disjointness of a group's three dicts (invariant P3). -/
def groupDisjoint (g : TaskGroup) : Prop :=
  disjKeys g.pending g.assigned = true ∧ disjKeys g.pending g.completed = true ∧
  disjKeys g.assigned g.completed = true

/-- A concrete master state for instantiating the `report_task` theorems:
map blob `1`, reduce blob `2`, one staged map chunk, one busy follower. -/
def sampleMapMaster : MasterState :=
  { followers := [.pstr "PYRO:follower@10.0.0.3:8008"]
    idleFollowers := []
    mapTasks := ⟨[(.pnat 0, .pstr "chunk0")], [], []⟩
    reduceTasks := ⟨[], [], []⟩
    results := []
    mapFunction := some 1
    reduceFunction := some 2
    alive := true }

/-- A concrete master state near the end of a job: the map phase is drained
and a single reduce task for key `"k"` is pending. -/
def sampleReduceMaster : MasterState :=
  { followers := [.pstr "PYRO:follower@10.0.0.3:8008"]
    idleFollowers := []
    mapTasks := ⟨[], [], [(.pnat 0, .pstr "chunk0")]⟩
    reduceTasks := ⟨[(.pstr "k", .pcons (.pnat 3) .pnil)], [], []⟩
    results := []
    mapFunction := some 1
    reduceFunction := some 2
    alive := true }

/-- A deserialized backup tuple, as the dict objects of its two dumps in a
heap.  The two task groups of every reachable master share one `assigned` (and
one `completed`) dict object — the default-argument aliasing of C2 — so
`dump()` places those shared objects in both halves of the backup tuple,
and the configured `dill` serializer (main.py line 33) preserves the
sharing across the DHT round trip: cell 11 (assigned, holding one formerly
assigned reduce task for key `"k"`) and cell 12 (completed) appear in both
dumps, while the pending cells 10 and 13 are distinct objects. -/
def sampleBackupHeap : PyHeap :=
  ⟨14, fun r => if r = 11 then [(.pstr "k", .pcons (.pnat 3) .pnil)] else []⟩

/-- Dict objects of the map half of the deserialized sample backup. -/
def sampleMapDumpRefs : TaskGroupRefs := ⟨10, 11, 12⟩

/-- Dict objects of the reduce half of the deserialized sample backup:
pending is its own object, assigned and completed are the objects shared
with the map half. -/
def sampleReduceDumpRefs : TaskGroupRefs := ⟨13, 11, 12⟩

/-- Endpoint of the sample local naming daemon. -/
def sampleLocalEndpoint : Endpoint := ⟨"10.0.0.1", 8008⟩

/-- Endpoint of the sample contesting remote naming daemon. -/
def sampleRemoteEndpoint : Endpoint := ⟨"10.0.0.2", 8008⟩

/-- A sample endpoint-id hash under which the local daemon has the higher
id (5 against 3). -/
def sampleIdf : Endpoint → Nat := fun e => if e = sampleLocalEndpoint then 5 else 3

/-- The sample local `NameServer` wrapper: running its own daemon, with one
registry binding. -/
def sampleNSState : NSState :=
  { ip := "10.0.0.1"
    port := 8008
    uri := sampleLocalEndpoint
    daemonRunning := true
    registry := [(.pstr "master", .pstr "PYRO:master@10.0.0.1:8008")] }

/-- The word-count style results mapping used in the client theorems. -/
def sampleClientResults : PyVal := plist [.ppair (.pstr "hello") (.pnat 2)]

theorem dget_dset_self (d : PyDict) (k v : PyVal) : dget? (dset d k v) k = some v := by
  induction d with
  | nil => simp [dset, dget?]
  | cons p d ih =>
      obtain ⟨k', v'⟩ := p
      by_cases h : k' = k <;> simp [dset, dget?, h, ih]

theorem dget_dset_ne (d : PyDict) (k v k' : PyVal) (h : k' ≠ k) :
    dget? (dset d k v) k' = dget? d k' := by
  have hne : ¬ (k = k') := fun hh => h hh.symm
  induction d with
  | nil => simp [dset, dget?, hne]
  | cons p d ih =>
      obtain ⟨k₀, v₀⟩ := p
      by_cases h0 : k₀ = k
      · subst h0
        simp [dset, dget?, hne]
      · by_cases h1 : k₀ = k'
        · subst h1
          simp [dset, dget?, h0]
        · simp [dset, dget?, h0, h1, ih]

theorem dmem_dset (d : PyDict) (k v k' : PyVal) :
    dmem (dset d k v) k' = (dmem d k' || decide (k' = k)) := by
  by_cases h : k' = k
  · subst h
    simp [dmem, dget_dset_self]
  · simp [dmem, dget_dset_ne d k v k' h, h]

theorem length_dset_mem (d : PyDict) (k v : PyVal) (h : dmem d k = true) :
    (dset d k v).length = d.length := by
  induction d with
  | nil => simp [dmem, dget?] at h
  | cons p d ih =>
      obtain ⟨k₀, v₀⟩ := p
      by_cases h0 : k₀ = k
      · simp [dset, h0]
      · have h1 : dmem d k = true := by simpa [dmem, dget?, h0] using h
        simp [dset, h0, ih h1]

theorem length_dset_not_mem (d : PyDict) (k v : PyVal) (h : dmem d k = false) :
    (dset d k v).length = d.length + 1 := by
  induction d with
  | nil => simp [dset]
  | cons p d ih =>
      obtain ⟨k₀, v₀⟩ := p
      by_cases h0 : k₀ = k
      · exfalso
        simp [dmem, dget?, h0] at h
      · have h1 : dmem d k = false := by simpa [dmem, dget?, h0] using h
        simp [dset, h0, ih h1]

theorem dget_dremove_ne (d : PyDict) (k k' : PyVal) (h : k' ≠ k) :
    dget? (dremove d k) k' = dget? d k' := by
  induction d with
  | nil => simp [dremove]
  | cons p d ih =>
      obtain ⟨k₀, v₀⟩ := p
      by_cases h0 : k₀ = k
      · subst h0
        have hne : ¬ (k₀ = k') := fun hh => h hh.symm
        simp [dremove, dget?, hne]
      · by_cases h1 : k₀ = k'
        · subst h1
          simp [dremove, dget?, h0]
        · simp [dremove, dget?, h0, h1, ih]

theorem dmem_dremove_sub (d : PyDict) (k k' : PyVal) (h : dmem (dremove d k) k' = true) :
    dmem d k' = true := by
  induction d with
  | nil => simpa [dremove] using h
  | cons p d ih =>
      obtain ⟨k₀, v₀⟩ := p
      by_cases h1 : k₀ = k'
      · simp [dmem, dget?, h1]
      · by_cases h0 : k₀ = k
        · subst h0
          simp only [dremove, if_pos rfl] at h
          simpa [dmem, dget?, h1] using h
        · have h2 : dmem (dremove d k) k' = true := by
            simpa [dremove, dmem, dget?, h0, h1] using h
          simpa [dmem, dget?, h1] using ih h2

theorem dmem_iff_mem_dkeys (d : PyDict) (k : PyVal) : dmem d k = true ↔ k ∈ dkeys d := by
  induction d with
  | nil => simp [dmem, dget?, dkeys]
  | cons p d ih =>
      obtain ⟨k₀, v₀⟩ := p
      by_cases h0 : k₀ = k
      · subst h0
        simp [dmem, dget?, dkeys]
      · have h1 : k ∈ dkeys ((k₀, v₀) :: d) ↔ k ∈ dkeys d := by
          simp only [dkeys, List.map_cons, List.mem_cons]
          constructor
          · rintro (hh | hh)
            · exact absurd hh.symm h0
            · exact hh
          · exact Or.inr
        rw [h1, ← ih]
        simp [dmem, dget?, h0]

theorem dget_dremove_self (d : PyDict) (k : PyVal) (hnd : (dkeys d).Nodup)
    (h : dmem d k = true) : dget? (dremove d k) k = none := by
  induction d with
  | nil => simp [dmem, dget?] at h
  | cons p d ih =>
      obtain ⟨k₀, v₀⟩ := p
      simp only [dkeys, List.map_cons, List.nodup_cons] at hnd
      by_cases h0 : k₀ = k
      · subst h0
        have hrm : dremove ((k₀, v₀) :: d) k₀ = d := by simp [dremove]
        rw [hrm]
        cases hd : dget? d k₀ with
        | none => rfl
        | some v =>
            exfalso
            have hmem : k₀ ∈ List.map Prod.fst d := by
              simpa [dkeys] using (dmem_iff_mem_dkeys d k₀).mp (by simp [dmem, hd])
            exact hnd.1 hmem
      · have h1 : dmem d k = true := by simpa [dmem, dget?, h0] using h
        simp [dremove, dget?, h0, ih hnd.2 h1]

theorem length_dremove_mem (d : PyDict) (k : PyVal) (h : dmem d k = true) :
    (dremove d k).length + 1 = d.length := by
  induction d with
  | nil => simp [dmem, dget?] at h
  | cons p d ih =>
      obtain ⟨k₀, v₀⟩ := p
      by_cases h0 : k₀ = k
      · simp [dremove, h0]
      · have h1 : dmem d k = true := by simpa [dmem, dget?, h0] using h
        simp [dremove, h0, ih h1]

theorem dmem_dupdate (d e : PyDict) (k : PyVal) :
    dmem (dupdate d e) k = (dmem d k || dmem e k) := by
  induction e generalizing d with
  | nil => simp [dupdate, dmem, dget?]
  | cons p e ih =>
      obtain ⟨k₀, v₀⟩ := p
      rw [show dupdate d ((k₀, v₀) :: e) = dupdate (dset d k₀ v₀) e from rfl, ih]
      by_cases h0 : k = k₀
      · subst h0
        simp [dmem_dset, dmem, dget?, dget_dset_self]
      · have hs : dmem (dset d k₀ v₀) k = dmem d k := by
          simp [dmem_dset, h0]
        have hc : dmem ((k₀, v₀) :: e) k = dmem e k := by
          have hne : ¬ (k₀ = k) := fun hh => h0 hh.symm
          simp [dmem, dget?, hne]
        rw [hs, hc]

theorem length_dupdate (d e : PyDict) (hd : disjKeys e d = true)
    (he : (dkeys e).Nodup) : (dupdate d e).length = d.length + e.length := by
  induction e generalizing d with
  | nil => simp [dupdate]
  | cons p e ih =>
      obtain ⟨k₀, v₀⟩ := p
      simp only [disjKeys, List.all_cons, Bool.and_eq_true] at hd
      simp only [dkeys, List.map_cons, List.nodup_cons] at he
      have hd1 : dmem d k₀ = false := by simpa using hd.1
      have hset : (dset d k₀ v₀).length = d.length + 1 :=
        length_dset_not_mem d k₀ v₀ hd1
      have hdisj : disjKeys e (dset d k₀ v₀) = true := by
        simp only [disjKeys, List.all_eq_true] at hd ⊢
        intro p hp
        have h1 := hd.2 p hp
        simp only [Bool.not_eq_true'] at h1 ⊢
        have hne : p.1 ≠ k₀ := by
          intro hh
          exact he.1 (hh ▸ List.mem_map_of_mem Prod.fst hp)
        simp [dmem_dset, h1, hne]
      have hrec := ih (dset d k₀ v₀) hdisj he.2
      show (dupdate (dset d k₀ v₀) e).length = d.length + ((k₀, v₀) :: e).length
      rw [hrec, hset, List.length_cons]
      omega


theorem disjKeys_spec (a b : PyDict) :
    disjKeys a b = true ↔ ∀ k, dmem a k = true → dmem b k = false := by
  simp only [disjKeys, List.all_eq_true]
  constructor
  · intro h k hk
    have hk' := (dmem_iff_mem_dkeys a k).mp hk
    simp only [dkeys, List.mem_map] at hk'
    obtain ⟨p, hp, hpk⟩ := hk'
    have hb := h p hp
    rw [Bool.not_eq_true'] at hb
    rw [← hpk]
    exact hb
  · intro h p hp
    rw [Bool.not_eq_true']
    by_cases hm : dmem a p.1 = true
    · exact h p.1 hm
    · exfalso
      exact hm ((dmem_iff_mem_dkeys a p.1).mpr (List.mem_map_of_mem Prod.fst hp))

theorem disjKeys_symm (a b : PyDict) (h : disjKeys a b = true) : disjKeys b a = true := by
  rw [disjKeys_spec] at h ⊢
  intro k hk
  by_cases ha : dmem a k = true
  · rw [h k ha] at hk
    exact absurd hk (by simp)
  · exact Bool.not_eq_true _ |>.mp ha

theorem isPyList_of_unplist (w : PyVal) (l : List PyVal) (h : unplist w = some l) :
    isPyList w = true := by
  cases w <;> simp [unplist, isPyList] at h ⊢

theorem pyAppendElem_of_unplist (w v : PyVal) (l : List PyVal) (h : unplist w = some l) :
    pyAppendElem w v = plist (l ++ [v]) := by
  induction w generalizing l with
  | pnil =>
      simp [unplist] at h
      subst h
      simp [pyAppendElem, plist]
  | pcons a t iha iht =>
      simp only [unplist, Option.map_eq_some'] at h
      obtain ⟨l', hl', rfl⟩ := h
      simp [pyAppendElem, iht l' hl', plist]
  | pnat n => simp [unplist] at h
  | pstr s => simp [unplist] at h
  | ppair x y => simp [unplist] at h

theorem reportFollowerStep_preserves (st : MasterState) (f : PyVal) :
    (reportFollowerStep st f).mapTasks = st.mapTasks ∧
    (reportFollowerStep st f).reduceTasks = st.reduceTasks ∧
    (reportFollowerStep st f).results = st.results ∧
    (reportFollowerStep st f).mapFunction = st.mapFunction ∧
    (reportFollowerStep st f).reduceFunction = st.reduceFunction := by
  unfold reportFollowerStep
  split <;> simp

theorem set_as_complete_completed_mem (g : TaskGroup) (tid : PyVal)
    (h : dmem g.pending tid = true ∨ dmem g.assigned tid = true) :
    dmem (g.set_as_complete tid).1.completed tid = true := by
  unfold TaskGroup.set_as_complete
  cases hp : dget? g.pending tid with
  | some t => simp [dmem_dset]
  | none =>
      cases ha : dget? g.assigned tid with
      | some t => simp [dmem_dset]
      | none =>
          exfalso
          rcases h with h | h
          · simp [dmem, hp] at h
          · simp [dmem, ha] at h

theorem forwardRegistry_lookup (s : PyDict) (recv : PyDict) (n : PyVal) :
    dget? (forwardRegistry recv s) n =
      match dget? recv n with
      | some a => some a
      | none => dget? s n := by
  induction s generalizing recv with
  | nil => cases h : dget? recv n <;> simp [forwardRegistry, h, dget?]
  | cons p rest ih =>
      obtain ⟨m, a⟩ := p
      rw [show forwardRegistry recv ((m, a) :: rest) =
            forwardRegistry (if dmem recv m then recv else dset recv m a) rest from rfl,
          ih]
      by_cases hm : dmem recv m
      · rw [if_pos hm]
        by_cases hmn : m = n
        · subst hmn
          cases h : dget? recv m with
          | none => simp [dmem, h] at hm
          | some x => simp [h]
        · cases h : dget? recv n <;> simp [h, dget?, hmn]
      · rw [if_neg hm]
        by_cases hmn : m = n
        · subst hmn
          have hn : dget? recv m = none := by
            cases h : dget? recv m with
            | none => rfl
            | some x => simp [dmem, h] at hm
          simp [dget_dset_self, hn, dget?]
        · have hne : n ≠ m := fun hh => hmn hh.symm
          rw [dget_dset_ne recv m a n hne]
          cases h : dget? recv n <;> simp [h, dget?, hmn]

/-- C10: `TaskGroup.dump` returns exactly the `(pending, assigned, completed)`
triple, loading a group's dump into any task group reproduces that group's
three maps, and `load` rejects (with an `AssertionError`) any tuple whose
length is not 3. -/
theorem taskgroup_dump_load_roundtrip (g g' : TaskGroup) (ts : List PyDict)
    (h : ts.length ≠ 3) :
    g.dump = [g.pending, g.assigned, g.completed] ∧
    g'.load g.dump = .ok g ∧
    g'.load ts =
      .error "AssertionError: Provided tuple must contain pending, assigned and completed tasks." := by
  refine ⟨rfl, rfl, ?_⟩
  match ts with
  | [] => rfl
  | [_] => rfl
  | [_, _] => rfl
  | [_, _, _] => exact absurd rfl h
  | _ :: _ :: _ :: _ :: _ => rfl

/-- Witness for C10 at a concrete group and a length-0 tuple. -/
theorem taskgroup_dump_load_roundtrip_witness :
    (([] : List PyDict).length ≠ 3) ∧
    ((⟨[], [], []⟩ : TaskGroup).load ([] : List PyDict) =
      .error "AssertionError: Provided tuple must contain pending, assigned and completed tasks.") ∧
    (⟨[(.pnat 0, .pstr "t")], [], []⟩ : TaskGroup).load
        (⟨[(.pnat 0, .pstr "t")], [], []⟩ : TaskGroup).dump =
      .ok (⟨[(.pnat 0, .pstr "t")], [], []⟩ : TaskGroup) := by
  refine ⟨by decide, ?_, ?_⟩
  · exact (taskgroup_dump_load_roundtrip (⟨[], [], []⟩ : TaskGroup) (⟨[], [], []⟩ : TaskGroup)
      [] (by decide)).2.2
  · exact (taskgroup_dump_load_roundtrip (⟨[(.pnat 0, .pstr "t")], [], []⟩ : TaskGroup)
      (⟨[(.pnat 0, .pstr "t")], [], []⟩ : TaskGroup) [] (by decide)).2.1

/-- C2: evaluation of the code at the failing input.  `TaskGroup.__init__`
uses mutable default arguments, evaluated once at class-definition time, so
the two `TaskGroup()` constructions of `Master.__init__` return objects
whose `pending`, `assigned` and `completed` fields reference the *same*
three dict objects: writing an entry through the map group's pending dict
makes it visible through the reduce group's pending dict, contradicting the
claim that the groups do not share underlying state. -/
theorem master_init_taskgroups_share_state :
    masterInitTasks.mapTasks = masterInitTasks.reduceTasks ∧
    hread
      (hwrite importHeap masterInitTasks.mapTasks.pending [(.pnat 1, .pstr "chunk")])
      masterInitTasks.reduceTasks.pending = [(.pnat 1, .pstr "chunk")] ∧
    hread importHeap masterInitTasks.reduceTasks.pending = [] := by
  exact ⟨rfl, rfl, rfl⟩

/-- C9 (counterexample): the backup snapshot of `_backup_loop` does not
acquire the four mutexes in the claimed fixed order `followers_lock` →
`map_tasks_lock` → `reduce_tasks_lock` → `results_lock`: it takes
`results_lock` second, before the two task locks. -/
theorem backup_lock_order_breaks_claimed_order :
    respectsClaimedOrder backupLoopLocks = false := by decide

/-- C9 (amended): `_assign_task` and both lock groups of `report_task`
respect the order `followers_lock` → `map_tasks_lock` → `reduce_tasks_lock`
→ `results_lock`, but the backup snapshot acquires `followers_lock`,
`results_lock`, `map_tasks_lock`, `reduce_tasks_lock` — nesting
`results_lock` before `reduce_tasks_lock` while `report_task`'s reduce
branch nests them the other way round — so the fixed acquisition order the
claim states does not hold for every multi-lock path. -/
theorem master_lock_acquisition_orders :
    respectsClaimedOrder assignTaskLocks = true ∧
    reportTaskMapLockGroups.all respectsClaimedOrder = true ∧
    reportTaskReduceLockGroups.all respectsClaimedOrder = true ∧
    respectsClaimedOrder backupLoopLocks = false ∧
    backupLoopLocks = [.followers, .results, .mapTasks, .reduceTasks] := by
  exact ⟨by decide, by decide, by decide, by decide, rfl⟩

/-- C8: evaluation of the code at the failing session.  After `startup`
acquires `results_lock`, `await_results` blocks; after `notify_results` is
invoked with the job's results mapping, `await_results` completes — but it
returns Python `None` (the method has no return statement), not the results
mapping, which is only stored in the `ServerInterface.results` class
attribute.  The repository's own `examples/word_count.py` uses the return
value as the mapping, and the claim states it is returned. -/
theorem await_results_returns_none :
    awaitResults (clientStartupAcquire clientInit) = none ∧
    awaitResults (notifyResults (clientStartupAcquire clientInit) sampleClientResults) =
      some (none, notifyResults (clientStartupAcquire clientInit) sampleClientResults) ∧
    (notifyResults (clientStartupAcquire clientInit) sampleClientResults).results =
      some sampleClientResults ∧
    (none : Option PyVal) ≠ some sampleClientResults := by
  exact ⟨rfl, rfl, rfl, by decide⟩

/-- C7 (counterexample): at a concrete state whose stored blobs are 1 and 2,
a report tagged with unknown blob 99 makes `report_task` raise `ValueError`
to the caller — the claim that such a report is discarded and logged without
raising is false. -/
theorem report_unknown_function_cex :
    sampleMapMaster.mapFunction ≠ some 99 ∧
    sampleMapMaster.reduceFunction ≠ some 99 ∧
    (reportTask sampleMapMaster (.pstr "PYRO:follower@10.0.0.3:8008")
        (.pnat 0) 99 (.pnat 5)).2 =
      some "ValueError: Received a task function that is not map or reduce." := by
  exact ⟨by decide, by decide, by decide⟩

/-- C7 (amended): a report whose task function matches neither stored blob
is not silently discarded: `report_task` raises `ValueError` to the caller.
The two task groups and the results list are left unchanged by the call —
the reporting follower, however, has already been moved from the busy to
the idle set before the raise. -/
theorem report_unknown_function_raises (st : MasterState) (f tid : PyVal)
    (fn : Nat) (r : PyVal)
    (hm : st.mapFunction ≠ some fn) (hr : st.reduceFunction ≠ some fn) :
    reportTask st f tid fn r =
      (reportFollowerStep st f,
       some "ValueError: Received a task function that is not map or reduce.") ∧
    (reportTask st f tid fn r).1.mapTasks = st.mapTasks ∧
    (reportTask st f tid fn r).1.reduceTasks = st.reduceTasks ∧
    (reportTask st f tid fn r).1.results = st.results := by
  obtain ⟨h1, h2, h3, h4, h5⟩ := reportFollowerStep_preserves st f
  have hm' : ¬ ((reportFollowerStep st f).mapFunction = some fn) := by
    rw [h4]; exact hm
  have hr' : ¬ ((reportFollowerStep st f).reduceFunction = some fn) := by
    rw [h5]; exact hr
  have heq : reportTask st f tid fn r =
      (reportFollowerStep st f,
       some "ValueError: Received a task function that is not map or reduce.") := by
    simp only [reportTask]
    rw [if_neg hm', if_neg hr']
  refine ⟨heq, ?_, ?_, ?_⟩ <;> rw [heq]
  · exact h1
  · exact h2
  · exact h3

/-- Witness for C7 at `sampleMapMaster` and blob 99. -/
theorem report_unknown_function_raises_witness :
    (sampleMapMaster.mapFunction ≠ some 99) ∧
    (sampleMapMaster.reduceFunction ≠ some 99) ∧
    (reportTask sampleMapMaster (.pstr "w") (.pnat 0) 99 (.pnat 5) =
      (reportFollowerStep sampleMapMaster (.pstr "w"),
       some "ValueError: Received a task function that is not map or reduce.") ∧
     (reportTask sampleMapMaster (.pstr "w") (.pnat 0) 99 (.pnat 5)).1.mapTasks =
       sampleMapMaster.mapTasks ∧
     (reportTask sampleMapMaster (.pstr "w") (.pnat 0) 99 (.pnat 5)).1.reduceTasks =
       sampleMapMaster.reduceTasks ∧
     (reportTask sampleMapMaster (.pstr "w") (.pnat 0) 99 (.pnat 5)).1.results =
       sampleMapMaster.results) :=
  ⟨by decide, by decide,
   report_unknown_function_raises sampleMapMaster (.pstr "w") (.pnat 0) 99 (.pnat 5)
     (by decide) (by decide)⟩

/-- C3 (counterexample): a concrete end of a job.  After the only reduce
task (key `"k"`) reports value `5`, both groups are drained and the master
is alive; the accumulated results are the bare list `[5]` — not `(key,
value)` pairs, the key `"k"` appears nowhere in them — and the commit step
emits exactly one DHT insert under `map-reduce/final-results` and no
`notify_results` invocation at all. -/
theorem master_commit_no_notify_cex :
    (reportTask sampleReduceMaster (.pstr "PYRO:follower@10.0.0.3:8008")
        (.pstr "k") 2 (.pnat 5)).1.results = [.pnat 5] ∧
    (reportTask sampleReduceMaster (.pstr "PYRO:follower@10.0.0.3:8008")
        (.pstr "k") 2 (.pnat 5)).1.mapTasks.any = false ∧
    (reportTask sampleReduceMaster (.pstr "PYRO:follower@10.0.0.3:8008")
        (.pstr "k") 2 (.pnat 5)).1.reduceTasks.any = false ∧
    (reportTask sampleReduceMaster (.pstr "PYRO:follower@10.0.0.3:8008")
        (.pstr "k") 2 (.pnat 5)).1.alive = true ∧
    masterCommit (reportTask sampleReduceMaster (.pstr "PYRO:follower@10.0.0.3:8008")
        (.pstr "k") 2 (.pnat 5)).1 =
      [.dhtInsert "map-reduce/final-results" (plist [.pnat 5])] ∧
    (masterCommit (reportTask sampleReduceMaster (.pstr "PYRO:follower@10.0.0.3:8008")
        (.pstr "k") 2 (.pnat 5)).1).all (fun e => !e.isNotify) = true ∧
    (.pnat 5 : PyVal) ≠ .ppair (.pstr "k") (.pnat 5) := by
  decide

/-- C3 (amended): when the dispatch loops have exited with the master still
alive (both task groups drained), the commit step performs exactly one
external call — inserting the accumulated results list under the literal
DHT key `map-reduce/final-results` — and never invokes the client's
`notify_results` callback; and each reduce-tagged report appends the bare
reported value (not a `(key, value)` pair) to that list. -/
theorem master_commit_effects (st : MasterState) (f tid : PyVal) (fn : Nat)
    (r : PyVal) (halive : st.alive = true)
    (hrf : st.reduceFunction = some fn) (hmf : st.mapFunction ≠ some fn) :
    masterCommit st = [.dhtInsert "map-reduce/final-results" (plist st.results)] ∧
    (masterCommit st).all (fun e => !e.isNotify) = true ∧
    (reportTask st f tid fn r).1.results = st.results ++ [r] ∧
    (reportTask st f tid fn r).2 = none := by
  obtain ⟨h1, h2, h3, h4, h5⟩ := reportFollowerStep_preserves st f
  have hm' : ¬ ((reportFollowerStep st f).mapFunction = some fn) := by
    rw [h4]; exact hmf
  have hr' : (reportFollowerStep st f).reduceFunction = some fn := by
    rw [h5]; exact hrf
  have hcommit : masterCommit st =
      [.dhtInsert "map-reduce/final-results" (plist st.results)] := by
    simp [masterCommit, halive]
  refine ⟨hcommit, by rw [hcommit]; rfl, ?_, ?_⟩
  · simp only [reportTask]
    rw [if_neg hm', if_pos hr']
    simp [h3]
  · simp only [reportTask]
    rw [if_neg hm', if_pos hr']

/-- Witness for C3 (amended) at the concrete pre-commit state. -/
theorem master_commit_effects_witness :
    (sampleReduceMaster.alive = true) ∧
    (sampleReduceMaster.reduceFunction = some 2) ∧
    (sampleReduceMaster.mapFunction ≠ some 2) ∧
    (masterCommit sampleReduceMaster =
       [.dhtInsert "map-reduce/final-results" (plist sampleReduceMaster.results)] ∧
     (masterCommit sampleReduceMaster).all (fun e => !e.isNotify) = true ∧
     (reportTask sampleReduceMaster (.pstr "w") (.pstr "k") 2 (.pnat 5)).1.results =
       sampleReduceMaster.results ++ [.pnat 5] ∧
     (reportTask sampleReduceMaster (.pstr "w") (.pstr "k") 2 (.pnat 5)).2 = none) :=
  ⟨rfl, rfl, by decide,
   master_commit_effects sampleReduceMaster (.pstr "w") (.pstr "k") 2 (.pnat 5)
     rfl rfl (by decide)⟩

/-- C4: evaluation of the code at the failing input.  Recovering from a
backup whose (shared) assigned dict holds one formerly assigned reduce
task for key `"k"`: `map_tasks.reset_assigned_to_pending()` drains the
shared assigned dict into MAP pending before `reduce_tasks.load(backup[1])`
reads it, so the reduce group comes back with an empty pending dict — the
formerly assigned reduce task is not restored to reduce pending (it sits in
map pending instead), contradicting the claim that after recovery every
formerly assigned task is moved back into its group's pending map. -/
theorem master_recover_shared_assigned_bug :
    sampleMapDumpRefs.assigned = sampleReduceDumpRefs.assigned ∧
    hread sampleBackupHeap sampleReduceDumpRefs.assigned =
      [(.pstr "k", .pcons (.pnat 3) .pnil)] ∧
    hread
      (masterRecoverFromBackupH sampleBackupHeap sampleMapDumpRefs sampleReduceDumpRefs).2
      (masterRecoverFromBackupH sampleBackupHeap sampleMapDumpRefs
        sampleReduceDumpRefs).1.2.pending = [] ∧
    dmem
      (hread
        (masterRecoverFromBackupH sampleBackupHeap sampleMapDumpRefs sampleReduceDumpRefs).2
        (masterRecoverFromBackupH sampleBackupHeap sampleMapDumpRefs
          sampleReduceDumpRefs).1.2.pending)
      (.pstr "k") = false ∧
    hread
      (masterRecoverFromBackupH sampleBackupHeap sampleMapDumpRefs sampleReduceDumpRefs).2
      (masterRecoverFromBackupH sampleBackupHeap sampleMapDumpRefs
        sampleReduceDumpRefs).1.1.pending =
      [(.pstr "k", .pcons (.pnat 3) .pnil)] ∧
    hread
      (masterRecoverFromBackupH sampleBackupHeap sampleMapDumpRefs sampleReduceDumpRefs).2
      (masterRecoverFromBackupH sampleBackupHeap sampleMapDumpRefs
        sampleReduceDumpRefs).1.2.assigned = [] := by
  exact ⟨rfl, rfl, rfl, rfl, rfl, rfl⟩

/-- C5 (counterexample): the local daemon's id is 5, the contesting remote's
is 3.  The claim predicts the higher-id daemon (the local one) wins and its
daemon keeps running; the code compares `id(curr_ns) >= id(new_ns)` and
makes the higher one concede: the local daemon is stopped, its registry is
forwarded, and the wrapper proxies to the remote from then on. -/
theorem ns_contest_higher_id_loses_cex :
    sampleIdf sampleNSState.uri > sampleIdf sampleRemoteEndpoint ∧
    sampleNSState.is_local = true ∧
    sampleNSState.daemonRunning = true ∧
    (refreshNameserver sampleIdf (fun _ => true) (some sampleRemoteEndpoint)
        sampleNSState []).1.daemonRunning = false ∧
    (refreshNameserver sampleIdf (fun _ => true) (some sampleRemoteEndpoint)
        sampleNSState []).1.uri = sampleRemoteEndpoint ∧
    (refreshNameserver sampleIdf (fun _ => true) (some sampleRemoteEndpoint)
        sampleNSState []).2 = sampleNSState.registry := by
  decide

/-- C5 (amended): the naming contest is won by the daemon with the LOWER
endpoint id.  While the local daemon runs and a distinct remote daemon is
located: if the local id is greater than or equal to the remote id, the
local wrapper forwards its entire registry to the remote with safe
semantics — bindings the remote already holds are kept as they are, all
others are added — then shuts its own daemon down and proxies to the
remote; if the local id is strictly smaller, the local daemon keeps running
and nothing changes on either side. -/
theorem ns_contest_lower_id_wins (idf : Endpoint → Nat) (rf : Endpoint → Bool)
    (st : NSState) (newNs : Endpoint) (rreg : PyDict)
    (hlocal : st.ip = st.uri.host) (hne : newNs ≠ st.uri) :
    (idf st.uri ≥ idf newNs →
      refreshNameserver idf rf (some newNs) st rreg =
        ({ st with uri := newNs, daemonRunning := false },
         forwardRegistry rreg st.registry)) ∧
    (idf st.uri < idf newNs →
      refreshNameserver idf rf (some newNs) st rreg = (st, rreg)) ∧
    (∀ n, dget? (forwardRegistry rreg st.registry) n =
      match dget? rreg n with
      | some x => some x
      | none => dget? st.registry n) := by
  have hrem : st.is_remote = false := by
    simp [NSState.is_remote, hlocal]
  refine ⟨?_, ?_, fun n => forwardRegistry_lookup st.registry rreg n⟩
  · intro hge
    simp [refreshNameserver, hrem, hne, hge, stopLocalNameserver]
  · intro hlt
    have hnge : ¬ (idf st.uri ≥ idf newNs) := by omega
    simp [refreshNameserver, hrem, hne, hnge]

/-- Witness for C5 (amended) at the sample contest. -/
theorem ns_contest_lower_id_wins_witness :
    (sampleNSState.ip = sampleNSState.uri.host) ∧
    (sampleRemoteEndpoint ≠ sampleNSState.uri) ∧
    ((sampleIdf sampleNSState.uri ≥ sampleIdf sampleRemoteEndpoint →
        refreshNameserver sampleIdf (fun _ => true) (some sampleRemoteEndpoint)
            sampleNSState [] =
          ({ sampleNSState with uri := sampleRemoteEndpoint, daemonRunning := false },
           forwardRegistry [] sampleNSState.registry)) ∧
     (sampleIdf sampleNSState.uri < sampleIdf sampleRemoteEndpoint →
        refreshNameserver sampleIdf (fun _ => true) (some sampleRemoteEndpoint)
            sampleNSState [] = (sampleNSState, [])) ∧
     (∀ n, dget? (forwardRegistry [] sampleNSState.registry) n =
        match dget? ([] : PyDict) n with
        | some x => some x
        | none => dget? sampleNSState.registry n)) :=
  ⟨rfl, by decide,
   ns_contest_lower_id_wins sampleIdf (fun _ => true) sampleNSState
     sampleRemoteEndpoint [] rfl (by decide)⟩

/-- C1 (counterexample): a map report whose `result` is a list of two
`(k, v)` pairs.  The claim predicts each value appended under its own key
(`"a" ↦ [1]`, `"b" ↦ [2]`); the code instead unpacks the whole list as one
`out_key, inter_val` pair, so the reduce pending dict ends up with the
single entry keyed by the tuple `("a", 1)` holding the list `[("b", 2)]`,
and neither `"a"` nor `"b"` is a key. -/
theorem report_map_list_result_cex :
    (reportTask sampleMapMaster (.pstr "PYRO:follower@10.0.0.3:8008") (.pnat 0) 1
        (plist [.ppair (.pstr "a") (.pnat 1), .ppair (.pstr "b") (.pnat 2)])).2 = none ∧
    dget? (reportTask sampleMapMaster (.pstr "PYRO:follower@10.0.0.3:8008") (.pnat 0) 1
        (plist [.ppair (.pstr "a") (.pnat 1), .ppair (.pstr "b") (.pnat 2)])).1.reduceTasks.pending
      (.pstr "a") = none ∧
    dget? (reportTask sampleMapMaster (.pstr "PYRO:follower@10.0.0.3:8008") (.pnat 0) 1
        (plist [.ppair (.pstr "a") (.pnat 1), .ppair (.pstr "b") (.pnat 2)])).1.reduceTasks.pending
      (.pstr "b") = none ∧
    (reportTask sampleMapMaster (.pstr "PYRO:follower@10.0.0.3:8008") (.pnat 0) 1
        (plist [.ppair (.pstr "a") (.pnat 1), .ppair (.pstr "b") (.pnat 2)])).1.reduceTasks.pending =
      [(.ppair (.pstr "a") (.pnat 1), .pcons (.ppair (.pstr "b") (.pnat 2)) .pnil)] := by
  decide

/-- C1 (amended): for a report tagged with the map function, the `result`
argument is treated as a single `(k, v)` pair: the task id is moved into the
map group's completed dict, and `v` is appended to the list under key `k` in
the reduce group's pending dict (the list is created if the key is absent);
every other reduce pending key and the results list are untouched, and no
exception is raised. -/
theorem report_map_single_pair (st : MasterState) (f tid k v : PyVal) (fn : Nat)
    (l0 : List PyVal)
    (hfn : st.mapFunction = some fn)
    (hpresent : dmem st.mapTasks.pending tid = true ∨ dmem st.mapTasks.assigned tid = true)
    (hslot : pendingSlot (dget? st.reduceTasks.pending k) = some l0) :
    (reportTask st f tid fn (.ppair k v)).2 = none ∧
    dmem (reportTask st f tid fn (.ppair k v)).1.mapTasks.completed tid = true ∧
    dget? (reportTask st f tid fn (.ppair k v)).1.reduceTasks.pending k =
      some (plist (l0 ++ [v])) ∧
    (∀ x, x ≠ k →
      dget? (reportTask st f tid fn (.ppair k v)).1.reduceTasks.pending x =
        dget? st.reduceTasks.pending x) ∧
    (reportTask st f tid fn (.ppair k v)).1.results = st.results := by
  obtain ⟨h1, h2, h3, h4, h5⟩ := reportFollowerStep_preserves st f
  have hm' : (reportFollowerStep st f).mapFunction = some fn := h4.trans hfn
  have happ : setdefaultAppend st.reduceTasks.pending k v =
      .ok (dset st.reduceTasks.pending k (plist (l0 ++ [v]))) := by
    cases hq : dget? st.reduceTasks.pending k with
    | none =>
        rw [hq] at hslot
        have : l0 = [] := by
          simpa [pendingSlot] using hslot.symm
        subst this
        simp [setdefaultAppend, hq, plist]
    | some w =>
        rw [hq] at hslot
        have hw : unplist w = some l0 := by simpa [pendingSlot] using hslot
        have hlist := isPyList_of_unplist w l0 hw
        have happw := pyAppendElem_of_unplist w v l0 hw
        simp [setdefaultAppend, hq, hlist, happw]
  have heval : reportTask st f tid fn (.ppair k v) =
      ({ reportFollowerStep st f with
           mapTasks := ((reportFollowerStep st f).mapTasks.set_as_complete tid).1,
           reduceTasks := { (reportFollowerStep st f).reduceTasks with
                              pending := dset st.reduceTasks.pending k
                                           (plist (l0 ++ [v])) } }, none) := by
    simp only [reportTask, unpack2]
    rw [if_pos hm']
    rw [show ({ reportFollowerStep st f with
                  mapTasks := ((reportFollowerStep st f).mapTasks.set_as_complete tid).1
              } : MasterState).reduceTasks.pending = st.reduceTasks.pending from by
          rw [show ({ reportFollowerStep st f with
                        mapTasks := ((reportFollowerStep st f).mapTasks.set_as_complete tid).1
                    } : MasterState).reduceTasks = (reportFollowerStep st f).reduceTasks from rfl,
              h2]]
    rw [happ]
  refine ⟨by rw [heval], ?_, ?_, ?_, ?_⟩
  · rw [heval]
    show dmem ((reportFollowerStep st f).mapTasks.set_as_complete tid).1.completed tid = true
    rw [h1]
    exact set_as_complete_completed_mem st.mapTasks tid hpresent
  · rw [heval]
    exact dget_dset_self st.reduceTasks.pending k (plist (l0 ++ [v]))
  · intro x hx
    rw [heval]
    exact dget_dset_ne st.reduceTasks.pending k (plist (l0 ++ [v])) x hx
  · rw [heval]
    exact h3

/-- Witness for C1 (amended) at `sampleMapMaster`, task 0 reporting the
pair `("a", 1)`. -/
theorem report_map_single_pair_witness :
    (sampleMapMaster.mapFunction = some 1) ∧
    (dmem sampleMapMaster.mapTasks.pending (.pnat 0) = true ∨
      dmem sampleMapMaster.mapTasks.assigned (.pnat 0) = true) ∧
    (pendingSlot (dget? sampleMapMaster.reduceTasks.pending (.pstr "a")) = some []) ∧
    ((reportTask sampleMapMaster (.pstr "w") (.pnat 0) 1
        (.ppair (.pstr "a") (.pnat 1))).2 = none ∧
     dmem (reportTask sampleMapMaster (.pstr "w") (.pnat 0) 1
        (.ppair (.pstr "a") (.pnat 1))).1.mapTasks.completed (.pnat 0) = true ∧
     dget? (reportTask sampleMapMaster (.pstr "w") (.pnat 0) 1
        (.ppair (.pstr "a") (.pnat 1))).1.reduceTasks.pending (.pstr "a") =
       some (plist ([] ++ [.pnat 1])) ∧
     (∀ x, x ≠ .pstr "a" →
       dget? (reportTask sampleMapMaster (.pstr "w") (.pnat 0) 1
          (.ppair (.pstr "a") (.pnat 1))).1.reduceTasks.pending x =
         dget? sampleMapMaster.reduceTasks.pending x) ∧
     (reportTask sampleMapMaster (.pstr "w") (.pnat 0) 1
        (.ppair (.pstr "a") (.pnat 1))).1.results = sampleMapMaster.results) :=
  ⟨rfl, Or.inl (by decide), rfl,
   report_map_single_pair sampleMapMaster (.pstr "w") (.pnat 0) (.pstr "a") (.pnat 1) 1 []
     rfl (Or.inl (by decide)) rfl⟩

theorem set_as_complete_preserves_invariants (g : TaskGroup) (tid : PyVal)
    (hnp : (dkeys g.pending).Nodup) (hna : (dkeys g.assigned).Nodup)
    (hpa : disjKeys g.pending g.assigned = true)
    (hpc : disjKeys g.pending g.completed = true)
    (hac : disjKeys g.assigned g.completed = true) :
    taskTotal (g.set_as_complete tid).1 = taskTotal g ∧
    groupDisjoint (g.set_as_complete tid).1 := by
  have Hpa := (disjKeys_spec _ _).mp hpa
  have Hpc := (disjKeys_spec _ _).mp hpc
  have Hac := (disjKeys_spec _ _).mp hac
  cases hp : dget? g.pending tid with
  | some t =>
      have hmemp : dmem g.pending tid = true := by simp [dmem, hp]
      have hcm : dmem g.completed tid = false := Hpc tid hmemp
      have hres : (g.set_as_complete tid).1 =
          ⟨dremove g.pending tid, g.assigned, dset g.completed tid t⟩ := by
        simp [TaskGroup.set_as_complete, hp]
      rw [hres]
      constructor
      · show (dremove g.pending tid).length + g.assigned.length +
            (dset g.completed tid t).length =
            g.pending.length + g.assigned.length + g.completed.length
        have e1 := length_dremove_mem g.pending tid hmemp
        have e2 := length_dset_not_mem g.completed tid t hcm
        omega
      · refine ⟨?_, ?_, ?_⟩
        · rw [disjKeys_spec]
          intro x hx
          exact Hpa x (dmem_dremove_sub _ _ _ hx)
        · rw [disjKeys_spec]
          intro x hx
          have hxp := dmem_dremove_sub _ _ _ hx
          have hxne : x ≠ tid := by
            intro hh
            subst hh
            have hz := dget_dremove_self g.pending x hnp hmemp
            simp [dmem, hz] at hx
          rw [dmem_dset]
          simp [Hpc x hxp, hxne]
        · rw [disjKeys_spec]
          intro x hx
          have hxne : x ≠ tid := by
            intro hh
            subst hh
            rw [Hpa x hmemp] at hx
            simp at hx
          rw [dmem_dset]
          simp [Hac x hx, hxne]
  | none =>
      cases ha : dget? g.assigned tid with
      | some t =>
          have hmema : dmem g.assigned tid = true := by simp [dmem, ha]
          have hcm : dmem g.completed tid = false := Hac tid hmema
          have hres : (g.set_as_complete tid).1 =
              ⟨g.pending, dremove g.assigned tid, dset g.completed tid t⟩ := by
            simp [TaskGroup.set_as_complete, hp, ha]
          rw [hres]
          constructor
          · show g.pending.length + (dremove g.assigned tid).length +
                (dset g.completed tid t).length =
                g.pending.length + g.assigned.length + g.completed.length
            have e1 := length_dremove_mem g.assigned tid hmema
            have e2 := length_dset_not_mem g.completed tid t hcm
            omega
          · refine ⟨?_, ?_, ?_⟩
            · rw [disjKeys_spec]
              intro x hx
              cases hmm : dmem (dremove g.assigned tid) x with
              | false => rfl
              | true =>
                  exfalso
                  have hxa := dmem_dremove_sub _ _ _ hmm
                  rw [Hpa x hx] at hxa
                  simp at hxa
            · rw [disjKeys_spec]
              intro x hx
              have hxne : x ≠ tid := by
                intro hh
                subst hh
                simp [dmem, hp] at hx
              rw [dmem_dset]
              simp [Hpc x hx, hxne]
            · rw [disjKeys_spec]
              intro x hx
              have hxa := dmem_dremove_sub _ _ _ hx
              have hxne : x ≠ tid := by
                intro hh
                subst hh
                have hz := dget_dremove_self g.assigned x hna hmema
                simp [dmem, hz] at hx
              rw [dmem_dset]
              simp [Hac x hxa, hxne]
      | none =>
          have hres : (g.set_as_complete tid).1 = g := by
            simp [TaskGroup.set_as_complete, hp, ha]
          rw [hres]
          exact ⟨rfl, hpa, hpc, hac⟩

theorem reset_assigned_preserves_invariants (g : TaskGroup)
    (hna : (dkeys g.assigned).Nodup)
    (hpa : disjKeys g.pending g.assigned = true)
    (hpc : disjKeys g.pending g.completed = true)
    (hac : disjKeys g.assigned g.completed = true) :
    taskTotal g.reset_assigned_to_pending = taskTotal g ∧
    groupDisjoint g.reset_assigned_to_pending := by
  have Hpc := (disjKeys_spec _ _).mp hpc
  have Hac := (disjKeys_spec _ _).mp hac
  constructor
  · show (dupdate g.pending g.assigned).length + ([] : PyDict).length +
        g.completed.length =
        g.pending.length + g.assigned.length + g.completed.length
    have e1 := length_dupdate g.pending g.assigned (disjKeys_symm _ _ hpa) hna
    simp only [List.length_nil]
    omega
  · refine ⟨?_, ?_, ?_⟩
    · rw [disjKeys_spec]
      intro x hx
      rfl
    · rw [disjKeys_spec]
      intro x hx
      show dmem g.completed x = false
      have hx' : dmem (dupdate g.pending g.assigned) x = true := hx
      rw [dmem_dupdate] at hx'
      rcases Bool.or_eq_true_iff.mp hx' with h | h
      · exact Hpc x h
      · exact Hac x h
    · rw [disjKeys_spec]
      intro x hx
      exact absurd hx (by simp [dmem, dget?, TaskGroup.reset_assigned_to_pending])

/-- C6: on a task group whose three dicts have duplicate-free keys (an
invariant of every Python dict) and are pairwise key-disjoint, both
`set_as_complete` and `reset_assigned_to_pending` preserve pairwise
disjointness — no task id ends up in more than one of the three dicts —
and preserve the total number of task ids
`len(pending) + len(assigned) + len(completed)`. -/
theorem taskgroup_ops_preserve_invariants (g : TaskGroup) (tid : PyVal)
    (hnp : (dkeys g.pending).Nodup) (hna : (dkeys g.assigned).Nodup)
    (hpa : disjKeys g.pending g.assigned = true)
    (hpc : disjKeys g.pending g.completed = true)
    (hac : disjKeys g.assigned g.completed = true) :
    taskTotal (g.set_as_complete tid).1 = taskTotal g ∧
    groupDisjoint (g.set_as_complete tid).1 ∧
    taskTotal g.reset_assigned_to_pending = taskTotal g ∧
    groupDisjoint g.reset_assigned_to_pending := by
  obtain ⟨a1, a2⟩ := set_as_complete_preserves_invariants g tid hnp hna hpa hpc hac
  obtain ⟨b1, b2⟩ := reset_assigned_preserves_invariants g hna hpa hpc hac
  exact ⟨a1, a2, b1, b2⟩

/-- Witness for C6 at a concrete three-task group. -/
theorem taskgroup_ops_preserve_invariants_witness :
    ((dkeys ([( .pnat 0, .pstr "t0")] : PyDict)).Nodup) ∧
    ((dkeys ([( .pnat 1, .pstr "t1")] : PyDict)).Nodup) ∧
    (disjKeys [(.pnat 0, .pstr "t0")] [(.pnat 1, .pstr "t1")] = true) ∧
    (disjKeys [(.pnat 0, .pstr "t0")] [(.pnat 2, .pstr "t2")] = true) ∧
    (disjKeys [(.pnat 1, .pstr "t1")] [(.pnat 2, .pstr "t2")] = true) ∧
    (taskTotal ((⟨[(.pnat 0, .pstr "t0")], [(.pnat 1, .pstr "t1")],
        [(.pnat 2, .pstr "t2")]⟩ : TaskGroup).set_as_complete (.pnat 0)).1 =
      taskTotal ⟨[(.pnat 0, .pstr "t0")], [(.pnat 1, .pstr "t1")],
        [(.pnat 2, .pstr "t2")]⟩ ∧
     groupDisjoint ((⟨[(.pnat 0, .pstr "t0")], [(.pnat 1, .pstr "t1")],
        [(.pnat 2, .pstr "t2")]⟩ : TaskGroup).set_as_complete (.pnat 0)).1 ∧
     taskTotal (⟨[(.pnat 0, .pstr "t0")], [(.pnat 1, .pstr "t1")],
        [(.pnat 2, .pstr "t2")]⟩ : TaskGroup).reset_assigned_to_pending =
      taskTotal ⟨[(.pnat 0, .pstr "t0")], [(.pnat 1, .pstr "t1")],
        [(.pnat 2, .pstr "t2")]⟩ ∧
     groupDisjoint (⟨[(.pnat 0, .pstr "t0")], [(.pnat 1, .pstr "t1")],
        [(.pnat 2, .pstr "t2")]⟩ : TaskGroup).reset_assigned_to_pending) :=
  ⟨by decide, by decide, by decide, by decide, by decide,
   taskgroup_ops_preserve_invariants
     ⟨[(.pnat 0, .pstr "t0")], [(.pnat 1, .pstr "t1")], [(.pnat 2, .pstr "t2")]⟩
     (.pnat 0) (by decide) (by decide) (by decide) (by decide) (by decide)⟩
